import Mathlib

/-!
# Verification of the TCP chat server (`main.go`)

A shallow embedding of the server in `src/main.go`: the listener accept
loop, the admission counter, the session registry (`clients` map), the
message history (`messages` slice), and the steady-state message loop of
`handleConnection`, together with theorems settling the specification
claims about them.

Connections are identified by natural numbers.  Straight-line handler
code is modelled as pure functions from inputs and state to a new state
plus a trace of observable events; critical sections that pair their
lock with an unlock (the listener's check-and-increment, the teardown
decrement) are single atomic transitions.

One fact about the source shapes the whole development: at lines
260–261 `handleConnection` runs `mutex.Lock()` with a *function-scoped*
`defer mutex.Unlock()`, so the handler still holds the global mutex
throughout the welcome write, the history replay, the join-notice
broadcast and the entire message loop.  Go's `sync.Mutex` is not
reentrant: the nested `mutex.Lock()` inside `broadcastMessage`
(line 383, reached from line 302) — or at line 287 on a failed welcome
write — blocks the goroutine forever while it holds the lock.  The
system model below therefore makes the mutex explicit: every
acquisition is a transition guarded on the lock being free, and the
self-deadlock after a successful name bind is *derived* as an
invariant, not assumed.  Code that sits beyond the blocked acquisition
(the join-notice fan-out, the steady-state message loop) is modelled
too, and proved unreachable.
-/

set_option maxRecDepth 8192

namespace TCPChat

/-! ## Go string primitives

Models of the `strings` package functions the server uses, restricted to
the characters that can actually appear in newline-delimited frames.
-/

/-- The ASCII white-space characters recognised by Go's
`unicode.IsSpace` (the server never receives the non-ASCII ones through
its own client). -/
def goIsSpace (c : Char) : Bool :=
  c == ' ' || c == '\t' || c == '\n' || c == '\x0b' || c == '\x0c' || c == '\r'

/-- Go `strings.TrimSpace`: drop white space from both ends. -/
def trimSpace (s : String) : String :=
  String.mk (((s.data.dropWhile goIsSpace).reverse.dropWhile goIsSpace).reverse)

/-- `listLeads p s` holds when the character list `p` is a leading
segment of `s`; the list-level core of Go `strings.HasPrefix`. -/
def listLeads : List Char → List Char → Bool
  | [], _ => true
  | _ :: _, [] => false
  | a :: as, b :: bs => a == b && listLeads as bs

/-- Go `strings.HasPrefix p s` (argument order: pattern first). -/
def strLeads (p s : String) : Bool :=
  listLeads p.data s.data

/-- UTF-8 byte width of one character, as Go counts it. -/
def charUtf8Size (c : Char) : Nat :=
  if c.val < 0x80 then 1
  else if c.val < 0x800 then 2
  else if c.val < 0x10000 then 3
  else 4

/-- Go `len(s)`: the UTF-8 byte length of the string. -/
def goLen (s : String) : Nat :=
  s.data.foldr (fun c n => charUtf8Size c + n) 0

/-- Split a character list at the first occurrence of `sep`, returning
the parts before and after it, or `none` when `sep` does not occur. -/
def splitFirst (sep : Char) : List Char → Option (List Char × List Char)
  | [] => none
  | c :: cs =>
    if c == sep then some ([], cs)
    else
      match splitFirst sep cs with
      | none => none
      | some (pre, post) => some (c :: pre, post)

/-- Core of Go `strings.SplitN` for a one-character separator: produce
at most `n` fields, the last keeping the unsplit remainder. -/
def goSplitChars (sep : Char) : Nat → List Char → List (List Char)
  | 0, _ => []
  | 1, cs => [cs]
  | n + 2, cs =>
    match splitFirst sep cs with
    | none => [cs]
    | some (pre, post) => pre :: goSplitChars sep (n + 1) post

/-- Go `strings.SplitN s sep n` for a one-character separator. -/
def goSplitN (s : String) (sep : Char) (n : Nat) : List String :=
  (goSplitChars sep n s.data).map String.mk

/-! ## Server constants (from `main.go`) -/

def maxConnections : Nat := 10

def protocolToken : String := "CHAT/1.0"

def invalidProtocolLine : String := "Invalid protocol. Please use TCP chat client.\n"

def serverFullLine : String := "Server is full. Please try again later.\n"

def emptyNameLine : String := "Name cannot be empty. Please reconnect.\n"

def dupNameLine : String := "Name is already in use. Please choose a different name.\n"

def msgTooLongLine : String := "Message too long (max 1024 characters)\n"

/-! ## Listener accept-loop body

`main.go` lines 136–161.  After `Accept`, the loop (1) reads the first
bytes of the connection and checks them against the protocol token with
`strings.HasPrefix`; (2) only then, under the mutex, compares `connCount`
with `maxConnections`, rejecting when full; (3) otherwise increments
`connCount` and spawns `handleConnection`.  We record the body as a
trace of primitive actions in program order, as a function of the first
frame read and the current `connCount` (an `Int`, as Go's `int`).
-/

/-- The handshake test the listener applies to the first frame:
`strings.HasPrefix(frame, "CHAT/1.0")`. -/
def handshakeAccepts (frame : String) : Bool :=
  strLeads protocolToken frame

inductive LAction
  /-- `conn.Read(buf)` — the first frame is consumed from the socket. -/
  | readFrame
  /-- `conn.Write([]byte(line))`. -/
  | writeConn (line : String)
  /-- `conn.Close()`. -/
  | closeConn
  /-- the mutex-guarded `connCount >= maxConnections` comparison. -/
  | checkCapacity
  /-- `connCount++` — a capacity slot is reserved. -/
  | reserveSlot
  /-- `go handleConnection(conn)`. -/
  | spawnHandler
deriving DecidableEq

/-- The listener's per-connection processing (`main.go` 143–161) as a
trace of actions in program order, given the first frame read from the
connection and the current active-connection count. -/
def listenerHandle (frame : String) (connCount : Int) : List LAction :=
  LAction.readFrame ::
    (if handshakeAccepts frame = false then
      [LAction.writeConn invalidProtocolLine, LAction.closeConn]
    else if (maxConnections : Int) ≤ connCount then
      [LAction.checkCapacity, LAction.writeConn serverFullLine, LAction.closeConn]
    else
      [LAction.checkCapacity, LAction.reserveSlot, LAction.spawnHandler])

/-! ## Admission counter

`connCount` is mutated in exactly two places, both under `mutex`: the
check-and-increment in the accept loop (`main.go` 152–160) and the
decrement in `handleConnection`'s deferred teardown (`main.go` 168–170).
A teardown can only run in a handler goroutine, and a handler is spawned
only after a successful increment, so the possible decrements are
bounded by the prior increments.  We model the count together with the
number of spawned, not-yet-torn-down handlers; each mutex-guarded block
is one atomic transition.
-/

structure AdmState where
  connCount : Int
  handlers : Nat
deriving DecidableEq

/-- The accept-loop critical section (`main.go` 152–160): if
`connCount >= maxConnections` the connection is rejected and the state
is unchanged; otherwise `connCount++` and a handler is spawned. -/
def enterStep (s : AdmState) : AdmState :=
  if (maxConnections : Int) ≤ s.connCount then s
  else { connCount := s.connCount + 1, handlers := s.handlers + 1 }

/-- The teardown critical section (`main.go` 168–170): `connCount--`,
and the handler goroutine ends. -/
def releaseStep (s : AdmState) : AdmState :=
  { connCount := s.connCount - 1, handlers := s.handlers - 1 }

/-- One atomic step of the admission subsystem: an admission attempt, or
the teardown of one of the live handlers. -/
inductive AdmStep : AdmState → AdmState → Prop
  | enter (s : AdmState) : AdmStep s (enterStep s)
  | release (s : AdmState) : 0 < s.handlers → AdmStep s (releaseStep s)

/-- States reachable from server start (`connCount = 0`, no handlers)
by any interleaving of admissions and teardowns. -/
inductive AdmReachable : AdmState → Prop
  | init : AdmReachable ⟨0, 0⟩
  | step {s t : AdmState} : AdmReachable s → AdmStep s t → AdmReachable t

/-! ## Session registry

The `clients` map (`net.Conn → string`) is modelled as an association
list from connection ids to display names.  The only mutation any
execution can reach is the bind at `main.go` 281; the deletion sites
(171–176, 288, 317–319, 396–399) all sit behind lock acquisitions or
loop entries that are proved unreachable below.
-/

/-- Registry contents: connection id paired with the bound name. -/
abbrev Registry := List (Nat × String)

inductive BindOutcome
  | alreadyPresent
  | duplicate
  | bound
deriving DecidableEq

/-- The body of the bind critical section of `handleConnection`
(`main.go` 263–281), executed only once the `mutex.Lock()` at line 260
has been acquired: if the connection already has an entry, return
silently; if any live session already holds exactly this name, reject
as duplicate (write `dupNameLine`, close); otherwise add the binding. -/
def tryAddClient (conn : Nat) (name : String) (reg : Registry) :
    BindOutcome × Registry :=
  if reg.any (fun p => p.1 == conn) then (BindOutcome.alreadyPresent, reg)
  else if reg.any (fun p => p.2 == name) then (BindOutcome.duplicate, reg)
  else (BindOutcome.bound, (conn, name) :: reg)

/-- `Welcome, name!` — the confirmation written at `main.go` 284. -/
def welcomeLine (name : String) : String := "Welcome, " ++ name ++ "!\n"

/-- The join notice `broadcastMessage` would fan out if the call at
`main.go` 302 could ever acquire the mutex. -/
def joinNoticeLine (name : String) : String := name ++ " has joined our chat...\n"

/-! ## Handler events, join phase, loop body -/

/-- Observable primitive events of a handler, in program order. -/
inductive SEvent
  /-- `clients[conn] = name` (`main.go` 281) — the session becomes a
  broadcast recipient. -/
  | bind (conn : Nat) (name : String)
  /-- A `Write` of `line` to connection `dest`; `line` includes the
  trailing newline exactly as the source appends it. -/
  | write (dest : Nat) (line : String)
  /-- The handler calls `mutex.Lock()` while it already holds the mutex
  (line 287, or line 383 reached from 302) and blocks forever. -/
  | lockBlocked (conn : Nat)
deriving DecidableEq

/-- `findConnectionByName` (`main.go` 373–380). -/
def findConnectionByName (name : String) : Registry → Option Nat
  | [] => none
  | (conn, clientName) :: rest =>
    if clientName == name then some conn else findConnectionByName name rest

/-- Mutable server state shared between handlers: the `clients` map and
the `messages` history slice. -/
structure ServerState where
  clients : Registry
  messages : List String
deriving DecidableEq

/-- The `for _, msg := range messages` replay loop (`main.go` 294–299):
one write per history line, in slice order. -/
def replayHistory (conn : Nat) : List String → List SEvent
  | [] => []
  | m :: rest => SEvent.write conn (m ++ "\n") :: replayHistory conn rest

/-- The join sequence after a successful bind (`main.go` 280–302), as a
state transformer plus an event trace in program order.  The handler
holds the mutex from line 260 under a function-scoped `defer`, so:
(1) `clients[conn] = clientName` (line 281); (2) if the `Welcome, name!`
write at 284 fails, the error path re-locks at 287 and blocks forever;
(3) otherwise the confirmation, then the whole history in order
(294–299), then `broadcastMessage` (302) re-locks at 383 and blocks
forever.  Either way the trace ends in `lockBlocked`: the join notice
is never fanned out and the message loop is never entered. -/
def joinPhase (conn : Nat) (name : String) (welcomeFails : Bool)
    (st : ServerState) : ServerState × List SEvent :=
  let clients' : Registry := (conn, name) :: st.clients
  if welcomeFails then
    (⟨clients', st.messages⟩, [SEvent.bind conn name, SEvent.lockBlocked conn])
  else
    (⟨clients', st.messages⟩,
      SEvent.bind conn name
        :: SEvent.write conn (welcomeLine name)
        :: replayHistory conn st.messages
        ++ [SEvent.lockBlocked conn])

/-- Result of one iteration of the message-loop body. -/
inductive LoopExit
  /-- The iteration completes and the loop reads the next line. -/
  | next (st : ServerState) (evs : List SEvent)
  /-- The iteration blocks forever acquiring the mutex the handler
  already holds (`main.go` 350, or 383 via 369). -/
  | stuck (st : ServerState) (evs : List SEvent)
deriving DecidableEq

/-- The body of the steady-state message loop (`main.go` 325–369) *as
written* — no execution reaches it (see the system model below), and it
runs with the mutex still held from line 260.  For a read line: trim;
skip blank lines; handle `/msg` only when `SplitN(message, " ", 3)`
yields three parts (the malformed case falls through); `/list` calls
`mutex.Lock()` at 350 and blocks before writing anything; lines longer
than 1024 bytes get the size notice; otherwise the line is formatted
`clientName: message`, appended to `messages` (368), and the
`broadcastMessage` call (369) blocks at 383 before writing to anyone. -/
def loopBody (conn : Nat) (clientName rawLine : String) (st : ServerState) :
    LoopExit :=
  let message := trimSpace rawLine
  if message = "" then LoopExit.next st []
  else if strLeads "/msg " message = true
      ∧ (goSplitN message ' ' 3).length = 3 then
    let parts := goSplitN message ' ' 3
    let recipient := parts.getD 1 ""
    let privateMessage := parts.getD 2 ""
    match findConnectionByName recipient st.clients with
    | some target =>
      LoopExit.next st
        [SEvent.write target ("[PM from " ++ clientName ++ "]: " ++ privateMessage ++ "\n"),
         SEvent.write conn ("[PM to " ++ recipient ++ "]: " ++ privateMessage ++ "\n")]
    | none => LoopExit.next st [SEvent.write conn ("User " ++ recipient ++ " not found\n")]
  else if message = "/list" then
    LoopExit.stuck st []
  else if 1024 < goLen message then
    LoopExit.next st [SEvent.write conn msgTooLongLine]
  else
    LoopExit.stuck ⟨st.clients, st.messages ++ [clientName ++ ": " ++ message]⟩ []

/-! ## System model: handlers, registry and the explicit mutex

The global state of the server for the portion of `handleConnection`
from the `mutex.Lock()` at line 260 onward (the banner, prompt and the
pre-lock empty-name rejection at 250–257 touch neither the mutex nor
the registry).  One task per handler goroutine whose name line was
non-empty.  Every `mutex.Lock()` of the source is a transition guarded
on `lockOwner = none`; `mutex.Unlock()` sets it back.  The deadlock is
not assumed: the `relock` transition (the nested `Lock` at 383/287) is
present, and the invariant proves its guard can never be satisfied.
-/

/-- Program counter of a handler task. -/
inductive Phase
  /-- At `main.go` 260, waiting on `mutex.Lock()`. -/
  | waitLock
  /-- Inside the bind critical section (263–281), holding the mutex. -/
  | critical
  /-- Bound; at 283–299 (welcome write and history replay), still
  holding the mutex (the `defer mutex.Unlock()` at 261 only runs at
  function return). -/
  | replay
  /-- At the nested `mutex.Lock()` (287 on welcome failure, or 383 via
  302), still holding the mutex from line 260. -/
  | waitRelock
  /-- Inside the steady-state message loop (307–370).  Only reachable
  if the nested lock at 383 were ever granted. -/
  | inLoop
  /-- Blocked on a further `mutex.Lock()` inside the loop (350 or
  383 via 369). -/
  | loopStuck
  /-- Returned via the silent already-present branch (265) or the
  duplicate-name branch (271–276): connection closed, deferred unlock
  at 261 has released the mutex. -/
  | closed
deriving DecidableEq

/-- Phases in which the task owns the mutex acquired at line 260. -/
def holdsMutex : Phase → Bool
  | Phase.critical => true
  | Phase.replay => true
  | Phase.waitRelock => true
  | _ => false

/-- Global server state: the mutex, the `clients` map, the `messages`
slice, the handler tasks (name line read, trimmed, non-empty), and
every line successfully written to a peer so far. -/
structure Sys where
  lockOwner : Option Nat
  clients : Registry
  messages : List String
  tasks : Nat → Option (String × Phase)
  written : List (Nat × String)

/-- Server start: mutex free, no clients, no history, no handlers. -/
def initSys : Sys := ⟨none, [], [], fun _ => none, []⟩

/-- Point update of the task table. -/
def setTask (tasks : Nat → Option (String × Phase)) (id : Nat)
    (v : Option (String × Phase)) : Nat → Option (String × Phase) :=
  fun j => if j = id then v else tasks j

/-- Outcome of running the bind critical section (263–281) for the task
that holds the mutex: the already-present and duplicate branches return
from `handleConnection`, so the deferred unlock at 261 releases the
mutex and the connection is closed; the duplicate branch writes
`dupNameLine` first (271–275); a successful bind proceeds to the
welcome write still holding the mutex. -/
def bindResultState (s : Sys) (id : Nat) (name : String) : Sys :=
  match tryAddClient id name s.clients with
  | (BindOutcome.alreadyPresent, reg') =>
    { s with
      clients := reg'
      lockOwner := none
      tasks := setTask s.tasks id (some (name, Phase.closed)) }
  | (BindOutcome.duplicate, reg') =>
    { s with
      clients := reg'
      lockOwner := none
      tasks := setTask s.tasks id (some (name, Phase.closed))
      written := s.written ++ [(id, dupNameLine)] }
  | (BindOutcome.bound, reg') =>
    { s with
      clients := reg'
      tasks := setTask s.tasks id (some (name, Phase.replay)) }

/-- The writes among a list of handler events. -/
def writesOf (evs : List SEvent) : List (Nat × String) :=
  evs.filterMap (fun e =>
    match e with
    | SEvent.write d l => some (d, l)
    | _ => none)

/-- Effect of one message-loop iteration on the global state (for a
task that were ever inside the loop). -/
def loopLineState (s : Sys) (id : Nat) (name rawLine : String) : Sys :=
  match loopBody id name rawLine ⟨s.clients, s.messages⟩ with
  | LoopExit.next st' evs =>
    { s with
      clients := st'.clients
      messages := st'.messages
      written := s.written ++ writesOf evs }
  | LoopExit.stuck st' evs =>
    { s with
      clients := st'.clients
      messages := st'.messages
      written := s.written ++ writesOf evs
      tasks := setTask s.tasks id (some (name, Phase.loopStuck)) }

/-- One interleaved step of the server.  `spawn` is a handler goroutine
reaching line 260 with a trimmed non-empty candidate name; `lock` is
the `mutex.Lock()` at 260, granted only when the mutex is free;
`bindStep` runs the critical section; `replayOk`/`replayFail` cover the
welcome write succeeding (then the history replay, 283–299) or failing
(286–291, no write), both ending at a nested `mutex.Lock()`; `relock`
is that nested acquisition (287, or 383 via 302) — granted only when
the mutex is free, which the invariant below shows never happens — it
would fan out the join notice (384–402) and enter the loop; `loopLine`
is one loop iteration. -/
inductive SysStep : Sys → Sys → Prop
  | spawn (s : Sys) (id : Nat) (name : String) :
      s.tasks id = none →
      SysStep s { s with tasks := setTask s.tasks id (some (name, Phase.waitLock)) }
  | lock (s : Sys) (id : Nat) (name : String) :
      s.tasks id = some (name, Phase.waitLock) → s.lockOwner = none →
      SysStep s { s with
        lockOwner := some id
        tasks := setTask s.tasks id (some (name, Phase.critical)) }
  | bindStep (s : Sys) (id : Nat) (name : String) :
      s.tasks id = some (name, Phase.critical) → s.lockOwner = some id →
      SysStep s (bindResultState s id name)
  | replayOk (s : Sys) (id : Nat) (name : String) :
      s.tasks id = some (name, Phase.replay) → s.lockOwner = some id →
      SysStep s { s with
        tasks := setTask s.tasks id (some (name, Phase.waitRelock))
        written := s.written
          ++ (id, welcomeLine name) :: s.messages.map (fun m => (id, m ++ "\n")) }
  | replayFail (s : Sys) (id : Nat) (name : String) :
      s.tasks id = some (name, Phase.replay) → s.lockOwner = some id →
      SysStep s { s with
        tasks := setTask s.tasks id (some (name, Phase.waitRelock)) }
  | relock (s : Sys) (id : Nat) (name : String) :
      s.tasks id = some (name, Phase.waitRelock) → s.lockOwner = none →
      SysStep s { s with
        lockOwner := some id
        tasks := setTask s.tasks id (some (name, Phase.inLoop))
        written := s.written
          ++ (s.clients.filter (fun p => ¬ p.1 == id)).map
              (fun p => (p.1, joinNoticeLine name)) }
  | loopLine (s : Sys) (id : Nat) (name rawLine : String) :
      s.tasks id = some (name, Phase.inLoop) →
      SysStep s (loopLineState s id name rawLine)

/-- States reachable from server start by any interleaving. -/
inductive SysReachable : Sys → Prop
  | init : SysReachable initSys
  | step {s t : Sys} : SysReachable s → SysStep s t → SysReachable t

/-- Inductive invariant of the server: (1) every line ever written by
the modelled portion is a welcome confirmation; (2) a task in a
mutex-holding phase is the lock owner; (3) a non-empty registry means
its binder still holds the mutex, in `replay` or `waitRelock`; (4) no
task is ever inside the message loop; (5) the history is empty (its
only append, line 368, is inside the loop); (6) at most one session is
ever bound. -/
def SysInv (s : Sys) : Prop :=
  (∀ d l, (d, l) ∈ s.written → ∃ n, l = welcomeLine n)
  ∧ (∀ id n ph, s.tasks id = some (n, ph) → holdsMutex ph = true → s.lockOwner = some id)
  ∧ (s.clients ≠ [] → ∃ id n ph, s.tasks id = some (n, ph)
      ∧ s.lockOwner = some id ∧ (ph = Phase.replay ∨ ph = Phase.waitRelock))
  ∧ (∀ id n ph, s.tasks id = some (n, ph) → ph ≠ Phase.inLoop ∧ ph ≠ Phase.loopStuck)
  ∧ s.messages = []
  ∧ s.clients.length ≤ 1

/-! ## Theorems -/

theorem maxConn_cast : (maxConnections : Int) = 10 := by decide

/-- Each atomic admission/teardown step preserves the counter
invariant: the count equals the number of live handlers and stays
within capacity. -/
theorem adm_step_inv {s t : AdmState} (hst : AdmStep s t)
    (h1 : s.connCount = (s.handlers : Int))
    (h2 : s.connCount ≤ (maxConnections : Int)) :
    t.connCount = (t.handlers : Int) ∧ t.connCount ≤ (maxConnections : Int) := by
  rw [maxConn_cast] at h2 ⊢
  cases hst with
  | enter =>
    unfold enterStep
    rw [maxConn_cast]
    split
    · exact ⟨h1, h2⟩
    · rename_i hfull
      refine ⟨?_, ?_⟩
      · show s.connCount + 1 = ((s.handlers + 1 : Nat) : Int)
        omega
      · show s.connCount + 1 ≤ (10 : Int)
        omega
  | release hlive =>
    refine ⟨?_, ?_⟩
    · show s.connCount - 1 = ((s.handlers - 1 : Nat) : Int)
      omega
    · show s.connCount - 1 ≤ (10 : Int)
      omega

/-- Inductive invariant of the admission subsystem over all reachable
states. -/
theorem adm_invariant {s : AdmState} (h : AdmReachable s) :
    s.connCount = (s.handlers : Int) ∧ s.connCount ≤ (maxConnections : Int) := by
  induction h with
  | init => exact ⟨rfl, by decide⟩
  | step _ hstep ih => exact adm_step_inv hstep ih.1 ih.2

/-- **C1.** For every sequence of connection admissions and teardowns
(modelled as an arbitrary interleaving of the two mutex-guarded critical
sections, each an atomic transition exactly as the source serializes
them), the active connection count never exceeds `maxConnections = 10`
and never goes negative. -/
theorem c1_conn_count_bounded (s : AdmState) (h : AdmReachable s) :
    0 ≤ s.connCount ∧ s.connCount ≤ (maxConnections : Int) := by
  obtain ⟨h1, h2⟩ := adm_invariant h
  exact ⟨by rw [h1]; exact Int.natCast_nonneg _, h2⟩

/-- Witness for C1: the state after one admission from server start is
reachable and satisfies the bounds. -/
theorem c1_witness :
    0 ≤ (enterStep ⟨0, 0⟩).connCount
    ∧ (enterStep ⟨0, 0⟩).connCount ≤ (maxConnections : Int) :=
  c1_conn_count_bounded _ (AdmReachable.step AdmReachable.init (AdmStep.enter ⟨0, 0⟩))

/-- **C2, counterexample.** The claim says a full server rejects a
connection *without the handshake frame being read or processed*.  In
the code the frame is read first (`readFrame` heads every trace) and the
handshake is validated first: at capacity 10, an invalid first frame is
answered with the protocol rejection rather than the full-server
rejection, and even a valid frame is consumed before the capacity check
runs. -/
theorem c2_counterexample :
    listenerHandle "GARBAGE" 10
      = [LAction.readFrame, LAction.writeConn invalidProtocolLine, LAction.closeConn]
    ∧ listenerHandle "CHAT/1.0" 10
      = [LAction.readFrame, LAction.checkCapacity,
         LAction.writeConn serverFullLine, LAction.closeConn] := by
  decide

/-- **C2, amended.** The listener reads and validates the handshake
frame first and only then performs the capacity check; when the server
is full and the frame is valid, the connection is rejected with the
full-server line and closed, after the handshake frame has been read but
without a slot being reserved and without a handler being spawned. -/
theorem c2_full_reject_after_handshake (frame : String) (connCount : Int)
    (hvalid : handshakeAccepts frame = true)
    (hfull : (maxConnections : Int) ≤ connCount) :
    listenerHandle frame connCount
      = [LAction.readFrame, LAction.checkCapacity,
         LAction.writeConn serverFullLine, LAction.closeConn]
    ∧ LAction.reserveSlot ∉ listenerHandle frame connCount
    ∧ LAction.spawnHandler ∉ listenerHandle frame connCount := by
  have h : listenerHandle frame connCount
      = [LAction.readFrame, LAction.checkCapacity,
         LAction.writeConn serverFullLine, LAction.closeConn] := by
    unfold listenerHandle
    rw [hvalid, if_neg (by decide : ¬ (true = false)), if_pos hfull]
  refine ⟨h, ?_, ?_⟩ <;> rw [h] <;> decide

/-- Witness for C2: a full server (count 10) receiving the valid token
frame. -/
theorem c2_witness :
    listenerHandle "CHAT/1.0" (10 : Int)
      = [LAction.readFrame, LAction.checkCapacity,
         LAction.writeConn serverFullLine, LAction.closeConn]
    ∧ LAction.reserveSlot ∉ listenerHandle "CHAT/1.0" (10 : Int)
    ∧ LAction.spawnHandler ∉ listenerHandle "CHAT/1.0" (10 : Int) :=
  c2_full_reject_after_handshake "CHAT/1.0" 10 (by decide) (by decide)

/-- **C5, counterexample.** The claim says the session proceeds past
the handshake *if and only if the first frame exactly matches* the
protocol token.  The code uses `strings.HasPrefix`: the frame
`"CHAT/1.0EVIL"` is not the token, yet the handshake accepts it and the
listener goes on to reserve a slot and spawn a handler. -/
theorem c5_counterexample :
    handshakeAccepts "CHAT/1.0EVIL" = true
    ∧ "CHAT/1.0EVIL" ≠ protocolToken
    ∧ listenerHandle "CHAT/1.0EVIL" 0
      = [LAction.readFrame, LAction.checkCapacity,
         LAction.reserveSlot, LAction.spawnHandler] := by
  decide

/-- **C5, amended.** A connection proceeds past the handshake (reaches
the capacity check) if and only if the protocol token `CHAT/1.0` is a
*leading segment* of the first frame; any other first frame receives
the rejection line and the connection is closed without a slot being
reserved and without a handler being spawned. -/
theorem c5_handshake_by_leading_token :
    (∀ (frame : String) (connCount : Int),
      LAction.checkCapacity ∈ listenerHandle frame connCount
        ↔ strLeads protocolToken frame = true)
    ∧ ∀ (frame : String) (connCount : Int),
        strLeads protocolToken frame = false →
        listenerHandle frame connCount
          = [LAction.readFrame, LAction.writeConn invalidProtocolLine, LAction.closeConn]
        ∧ LAction.reserveSlot ∉ listenerHandle frame connCount
        ∧ LAction.spawnHandler ∉ listenerHandle frame connCount := by
  have hrej : ∀ (frame : String) (connCount : Int),
      strLeads protocolToken frame = false →
      listenerHandle frame connCount
        = [LAction.readFrame, LAction.writeConn invalidProtocolLine, LAction.closeConn] := by
    intro frame connCount hbad
    unfold listenerHandle handshakeAccepts
    rw [if_pos hbad]
  constructor
  · intro frame connCount
    constructor
    · intro hmem
      cases hacc : strLeads protocolToken frame with
      | true => rfl
      | false =>
        rw [hrej frame connCount hacc] at hmem
        exact absurd hmem (by decide)
    · intro hacc
      unfold listenerHandle handshakeAccepts
      rw [hacc, if_neg (by decide : ¬ (true = false))]
      by_cases hfull : (maxConnections : Int) ≤ connCount
      · rw [if_pos hfull]
        decide
      · rw [if_neg hfull]
        decide
  · intro frame connCount hbad
    refine ⟨hrej frame connCount hbad, ?_, ?_⟩ <;>
      rw [hrej frame connCount hbad] <;> decide

/-- Witness for C5: the valid token passes, and the frame `"HELLO"` is
rejected without a slot or handler. -/
theorem c5_witness :
    (LAction.checkCapacity ∈ listenerHandle "CHAT/1.0" 0
      ↔ strLeads protocolToken "CHAT/1.0" = true)
    ∧ (listenerHandle "HELLO" 0
        = [LAction.readFrame, LAction.writeConn invalidProtocolLine, LAction.closeConn]
      ∧ LAction.reserveSlot ∉ listenerHandle "HELLO" 0
      ∧ LAction.spawnHandler ∉ listenerHandle "HELLO" 0) :=
  ⟨c5_handshake_by_leading_token.1 "CHAT/1.0" 0,
    c5_handshake_by_leading_token.2 "HELLO" 0 (by decide)⟩

/-- A line bearing the `/msg ` command marker is not empty. -/
theorem msg_marker_ne_empty {m : String} (h : strLeads "/msg " m = true) : m ≠ "" := by
  intro hm
  subst hm
  exact absurd h (by decide)

/-- A line bearing the `/msg ` command marker is not `/list`. -/
theorem msg_marker_ne_list {m : String} (h : strLeads "/msg " m = true) : m ≠ "/list" := by
  intro hm
  subst hm
  exact absurd h (by decide)

theorem setTask_eq (f : Nat → Option (String × Phase)) (id : Nat)
    (v : Option (String × Phase)) : setTask f id v id = v := by
  simp [setTask]

theorem setTask_ne (f : Nat → Option (String × Phase)) (id : Nat)
    (v : Option (String × Phase)) (j : Nat) (h : j ≠ id) :
    setTask f id v j = f j := by
  simp [setTask, h]

/-- Every welcome confirmation starts with `W`. -/
theorem welcome_head (n : String) : (welcomeLine n).data.head? = some 'W' := by
  obtain ⟨l⟩ := n
  rfl

/-- The duplicate-name rejection line is not a welcome confirmation
(it starts with `N`, every welcome line with `W`). -/
theorem dup_ne_welcome (n : String) : dupNameLine ≠ welcomeLine n := by
  intro h
  have h2 : dupNameLine.data.head? = (welcomeLine n).data.head? := by rw [h]
  rw [welcome_head] at h2
  exact absurd h2 (by decide)

/-- The size-limit notice is not a welcome confirmation. -/
theorem tooLong_ne_welcome (n : String) : msgTooLongLine ≠ welcomeLine n := by
  intro h
  have h2 : msgTooLongLine.data.head? = (welcomeLine n).data.head? := by rw [h]
  rw [welcome_head] at h2
  exact absurd h2 (by decide)

/-- The history replay loop emits exactly one write per history line,
in order. -/
theorem replayHistory_map (conn : Nat) (l : List String) :
    replayHistory conn l = l.map (fun m => SEvent.write conn (m ++ "\n")) := by
  induction l with
  | nil => rfl
  | cons m rest ih => simp [replayHistory, ih]

/-- The default (chat) branch of the loop body as written: a non-blank
line that is not a well-formed `/msg`, not `/list`, and within the size
limit is appended to history as `clientName: message`, and the
iteration then blocks on the broadcast's `mutex.Lock()` before writing
to anyone. -/
theorem loopBody_chat (conn : Nat) (clientName rawLine : String) (st : ServerState)
    (h0 : trimSpace rawLine ≠ "")
    (h1 : ¬ (strLeads "/msg " (trimSpace rawLine) = true
            ∧ (goSplitN (trimSpace rawLine) ' ' 3).length = 3))
    (h2 : trimSpace rawLine ≠ "/list")
    (h3 : goLen (trimSpace rawLine) ≤ 1024) :
    loopBody conn clientName rawLine st
      = LoopExit.stuck ⟨st.clients, st.messages ++ [clientName ++ ": " ++ trimSpace rawLine]⟩
          [] := by
  simp only [loopBody]
  rw [if_neg h0, if_neg h1, if_neg h2, if_neg (Nat.not_lt.mpr h3)]

/-- The size-limit branch of the loop body as written: a plain line
over 1024 bytes would be answered with the notice and the loop would
continue. -/
theorem loopBody_oversize (conn : Nat) (clientName rawLine : String) (st : ServerState)
    (hnotpm : strLeads "/msg " (trimSpace rawLine) = false)
    (hbig : 1024 < goLen (trimSpace rawLine)) :
    loopBody conn clientName rawLine st
      = LoopExit.next st [SEvent.write conn msgTooLongLine] := by
  have hne : trimSpace rawLine ≠ "" := by
    intro h
    rw [h] at hbig
    exact absurd hbig (by decide)
  have hnl : trimSpace rawLine ≠ "/list" := by
    intro h
    rw [h] at hbig
    exact absurd hbig (by decide)
  simp only [loopBody]
  rw [if_neg hne, if_neg (fun hand => by rw [hnotpm] at hand; exact Bool.false_ne_true hand.1),
    if_neg hnl, if_pos hbig]

/-- The blank-line branch of the loop body as written. -/
theorem loopBody_blank (conn : Nat) (clientName rawLine : String) (st : ServerState)
    (h : trimSpace rawLine = "") :
    loopBody conn clientName rawLine st = LoopExit.next st [] := by
  simp only [loopBody]
  rw [if_pos h]

/-- Every interleaved step of the server preserves the invariant.  The
central cases: a task can only enter the bind critical section while
the registry is empty (a non-empty registry means its binder still
holds the mutex, so the lock is never free), hence the duplicate branch
never runs; and the nested lock acquisition (`relock`) is never enabled
because its task already owns the mutex. -/
theorem sys_step_inv {s t : Sys} (hst : SysStep s t) (hinv : SysInv s) : SysInv t := by
  obtain ⟨h1, h2, h3, h4, h5, h6⟩ := hinv
  cases hst with
  | spawn id name hid =>
    refine ⟨h1, ?_, ?_, ?_, h5, h6⟩
    · intro i n ph hi hph
      by_cases hji : i = id
      · subst hji
        simp only [setTask_eq] at hi
        cases hi
        exact absurd hph (by decide)
      · simp only [setTask_ne _ _ _ _ hji] at hi
        exact h2 i n ph hi hph
    · intro hcl
      obtain ⟨i, n, ph, hi, ho, hph⟩ := h3 hcl
      have hji : i ≠ id := by
        intro h
        subst h
        rw [hid] at hi
        cases hi
      exact ⟨i, n, ph, by simp only [setTask_ne _ _ _ _ hji]; exact hi, ho, hph⟩
    · intro i n ph hi
      by_cases hji : i = id
      · subst hji
        simp only [setTask_eq] at hi
        cases hi
        exact ⟨by decide, by decide⟩
      · simp only [setTask_ne _ _ _ _ hji] at hi
        exact h4 i n ph hi
  | lock id name hid hown =>
    refine ⟨h1, ?_, ?_, ?_, h5, h6⟩
    · intro i n ph hi hph
      by_cases hji : i = id
      · subst hji
        rfl
      · simp only [setTask_ne _ _ _ _ hji] at hi
        have := h2 i n ph hi hph
        rw [hown] at this
        cases this
    · intro hcl
      obtain ⟨i, n, ph, hi, ho, _⟩ := h3 hcl
      rw [hown] at ho
      cases ho
    · intro i n ph hi
      by_cases hji : i = id
      · subst hji
        simp only [setTask_eq] at hi
        cases hi
        exact ⟨by decide, by decide⟩
      · simp only [setTask_ne _ _ _ _ hji] at hi
        exact h4 i n ph hi
  | bindStep id name hid hown =>
    have hcl : s.clients = [] := by
      by_contra hne
      obtain ⟨i, n, ph, hi, ho, hph⟩ := h3 hne
      rw [hown] at ho
      cases ho
      rw [hid] at hi
      cases hi
      rcases hph with h | h <;> cases h
    have hbind : bindResultState s id name
        = { s with
            clients := [(id, name)]
            tasks := setTask s.tasks id (some (name, Phase.replay)) } := by
      unfold bindResultState
      rw [hcl]
      rfl
    rw [hbind]
    refine ⟨h1, ?_, ?_, ?_, h5, ?_⟩
    · intro i n ph hi hph
      by_cases hji : i = id
      · subst hji
        exact hown
      · simp only [setTask_ne _ _ _ _ hji] at hi
        exact h2 i n ph hi hph
    · intro _
      exact ⟨id, name, Phase.replay, by simp [setTask_eq], hown, Or.inl rfl⟩
    · intro i n ph hi
      by_cases hji : i = id
      · subst hji
        simp only [setTask_eq] at hi
        cases hi
        exact ⟨by decide, by decide⟩
      · simp only [setTask_ne _ _ _ _ hji] at hi
        exact h4 i n ph hi
    · exact Nat.le_refl 1
  | replayOk id name hid hown =>
    refine ⟨?_, ?_, ?_, ?_, h5, h6⟩
    · intro d l hdl
      rw [h5] at hdl
      simp only [List.map_nil] at hdl
      rcases List.mem_append.mp hdl with hmem | hmem
      · exact h1 d l hmem
      · simp only [List.mem_cons, List.not_mem_nil, or_false, Prod.mk.injEq] at hmem
        obtain ⟨-, rfl⟩ := hmem
        exact ⟨name, rfl⟩
    · intro i n ph hi hph
      by_cases hji : i = id
      · subst hji
        exact hown
      · simp only [setTask_ne _ _ _ _ hji] at hi
        exact h2 i n ph hi hph
    · intro hcl
      obtain ⟨i, n, ph, hi, ho, hph⟩ := h3 hcl
      rw [hown] at ho
      cases ho
      exact ⟨id, name, Phase.waitRelock, by simp [setTask_eq], hown, Or.inr rfl⟩
    · intro i n ph hi
      by_cases hji : i = id
      · subst hji
        simp only [setTask_eq] at hi
        cases hi
        exact ⟨by decide, by decide⟩
      · simp only [setTask_ne _ _ _ _ hji] at hi
        exact h4 i n ph hi
  | replayFail id name hid hown =>
    refine ⟨h1, ?_, ?_, ?_, h5, h6⟩
    · intro i n ph hi hph
      by_cases hji : i = id
      · subst hji
        exact hown
      · simp only [setTask_ne _ _ _ _ hji] at hi
        exact h2 i n ph hi hph
    · intro hcl
      obtain ⟨i, n, ph, hi, ho, hph⟩ := h3 hcl
      rw [hown] at ho
      cases ho
      exact ⟨id, name, Phase.waitRelock, by simp [setTask_eq], hown, Or.inr rfl⟩
    · intro i n ph hi
      by_cases hji : i = id
      · subst hji
        simp only [setTask_eq] at hi
        cases hi
        exact ⟨by decide, by decide⟩
      · simp only [setTask_ne _ _ _ _ hji] at hi
        exact h4 i n ph hi
  | relock id name hid hown =>
    exfalso
    have := h2 id name Phase.waitRelock hid (by decide)
    rw [hown] at this
    cases this
  | loopLine id name rawLine hid =>
    exact absurd rfl (h4 id name Phase.inLoop hid).1

/-- The invariant holds in every reachable server state. -/
theorem sys_invariant {s : Sys} (h : SysReachable s) : SysInv s := by
  induction h with
  | init =>
    refine ⟨?_, ?_, ?_, ?_, rfl, ?_⟩
    · intro d l hdl
      cases hdl
    · intro i n ph hi
      cases hi
    · intro hcl
      exact absurd rfl hcl
    · intro i n ph hi
      cases hi
    · decide
  | step _ hstep ih => exact sys_step_inv hstep ih

/-- In every reachable state, every line ever written by the modelled
portion of the server (line 260 of `handleConnection` onward) is a
welcome confirmation: nothing else — no duplicate-name rejection, no
join or leave notice, no history line, no broadcast, no private
message, no size notice — is ever sent. -/
theorem sys_written_welcome {s : Sys} (h : SysReachable s) :
    ∀ d l, (d, l) ∈ s.written → ∃ n, l = welcomeLine n :=
  (sys_invariant h).1

/-- No reachable state has a handler inside the steady-state message
loop: the loop entry sits behind the nested `mutex.Lock()` that its own
handler already holds. -/
theorem sys_no_loop {s : Sys} (h : SysReachable s) :
    ∀ id n, s.tasks id ≠ some (n, Phase.inLoop) := by
  intro id n hi
  exact absurd rfl ((sys_invariant h).2.2.2.1 id n Phase.inLoop hi).1

/-- At most one session is ever in the registry in any reachable
state. -/
theorem sys_clients_at_most_one {s : Sys} (h : SysReachable s) :
    s.clients.length ≤ 1 :=
  (sys_invariant h).2.2.2.2.2

/-! ## A concrete execution: the first client joins and the server jams

The canonical run: one client handshakes, is admitted, sends the name
`Alice`, binds, receives the welcome — and its handler then blocks
forever on the nested `mutex.Lock()`.  These states witness the
reachability hypotheses of the claim theorems.
-/

def sysA1 : Sys :=
  { initSys with tasks := setTask initSys.tasks 1 (some ("Alice", Phase.waitLock)) }

def sysA2 : Sys :=
  { sysA1 with
    lockOwner := some 1
    tasks := setTask sysA1.tasks 1 (some ("Alice", Phase.critical)) }

def sysA3 : Sys := bindResultState sysA2 1 "Alice"

def sysA4 : Sys :=
  { sysA3 with
    tasks := setTask sysA3.tasks 1 (some ("Alice", Phase.waitRelock))
    written := sysA3.written
      ++ (1, welcomeLine "Alice") :: sysA3.messages.map (fun m => (1, m ++ "\n")) }

/-- The jammed state after Alice's join is reachable. -/
theorem sysA4_reachable : SysReachable sysA4 :=
  SysReachable.step
    (SysReachable.step
      (SysReachable.step
        (SysReachable.step SysReachable.init (SysStep.spawn initSys 1 "Alice" rfl))
        (SysStep.lock sysA1 1 "Alice" rfl rfl))
      (SysStep.bindStep sysA2 1 "Alice" rfl rfl))
    (SysStep.replayOk sysA3 1 "Alice" rfl rfl)

/-- **C3.** The claim (history replayed in full, in order, strictly
before the session is registered as a broadcast recipient) names
behaviour the code inverts and then never completes: (i) the join
sequence as written registers the session first (`clients[conn] =
name`, line 281, the head of the trace), then writes the welcome, then
the history in order, and then blocks forever on the nested
`mutex.Lock()` — the join notice is never broadcast and the loop never
entered; (ii) if the welcome write fails, the error path blocks at
line 287 just the same; (iii) in every reachable execution, the only
lines ever written from line 260 onward are welcome confirmations — no
history line or join notice is ever delivered (the history is forever
empty: its only append is inside the unreachable loop). -/
theorem c3_join_binds_before_replay_then_deadlocks :
    (∀ (conn : Nat) (name : String) (st : ServerState),
      (joinPhase conn name false st).2
        = SEvent.bind conn name :: SEvent.write conn (welcomeLine name)
            :: st.messages.map (fun m => SEvent.write conn (m ++ "\n"))
            ++ [SEvent.lockBlocked conn])
    ∧ (∀ (conn : Nat) (name : String) (st : ServerState),
      (joinPhase conn name true st).2 = [SEvent.bind conn name, SEvent.lockBlocked conn])
    ∧ ∀ s : Sys, SysReachable s → ∀ d l, (d, l) ∈ s.written → ∃ n, l = welcomeLine n := by
  refine ⟨?_, ?_, ?_⟩
  · intro conn name st
    have h : (joinPhase conn name false st).2
        = SEvent.bind conn name :: SEvent.write conn (welcomeLine name)
            :: replayHistory conn st.messages ++ [SEvent.lockBlocked conn] := rfl
    rw [h, replayHistory_map]
  · intro conn name st
    rfl
  · intro s hs
    exact sys_written_welcome hs

/-- Witness for C3: the concrete join trace of `Bob` (bind first, then
welcome, then the history, then the blocked lock), and the only line
ever written in the jammed `Alice` run is her welcome. -/
theorem c3_witness :
    (joinPhase 2 "Bob" false ⟨[(1, "Alice")], ["m1"]⟩).2
      = [SEvent.bind 2 "Bob", SEvent.write 2 "Welcome, Bob!\n", SEvent.write 2 "m1\n",
         SEvent.lockBlocked 2]
    ∧ ∃ n, "Welcome, Alice!\n" = welcomeLine n :=
  ⟨c3_join_binds_before_replay_then_deadlocks.1 2 "Bob" ⟨[(1, "Alice")], ["m1"]⟩,
    c3_join_binds_before_replay_then_deadlocks.2.2 sysA4 sysA4_reachable 1
      "Welcome, Alice!\n" (by decide)⟩

/-- **C4.** The claim (every chat line is timestamped, appended to
history, and delivered to every admitted session but the sender) names
behaviour no execution performs: (i) no reachable state has a handler
inside the message loop, so no chat line is ever read or broadcast;
(ii) the loop body as written would append the timestampless
`Alice: hi` and then block on the broadcast's `mutex.Lock()` before
writing to anyone; (iii) `Alice: hi` contains no digit at all, while
any rendered wall-clock timestamp contains digits; (iv) the line
`Alice: hi` (with its newline) is never written in any reachable
execution. -/
theorem c4_no_chat_delivery_no_timestamp :
    (∀ s : Sys, SysReachable s → ∀ id n, s.tasks id ≠ some (n, Phase.inLoop))
    ∧ loopBody 1 "Alice" "hi" ⟨[(1, "Alice"), (2, "Bob")], []⟩
        = LoopExit.stuck ⟨[(1, "Alice"), (2, "Bob")], ["Alice: hi"]⟩ []
    ∧ ("Alice: hi").data.all (fun c => ! c.isDigit) = true
    ∧ ∀ s : Sys, SysReachable s → ∀ d, (d, "Alice: hi\n") ∉ s.written := by
  refine ⟨fun _ hs => sys_no_loop hs, rfl, by decide, ?_⟩
  intro s hs d hmem
  obtain ⟨n, hn⟩ := sys_written_welcome hs d _ hmem
  have h2 : ("Alice: hi\n" : String).data.head? = (welcomeLine n).data.head? := by rw [hn]
  rw [welcome_head] at h2
  exact absurd h2 (by decide)

/-- Witness for C4: in the jammed `Alice` run, no handler is in the
loop and the chat line was never written. -/
theorem c4_witness :
    sysA4.tasks 2 ≠ some ("Bob", Phase.inLoop)
    ∧ (5, "Alice: hi\n") ∉ sysA4.written :=
  ⟨c4_no_chat_delivery_no_timestamp.1 sysA4 sysA4_reachable 2 "Bob",
    c4_no_chat_delivery_no_timestamp.2.2.2 sysA4 sysA4_reachable 5⟩

/-- **C6.** The claim (a duplicate candidate name is rejected with a
message and its connection closed) names a branch that is dead code:
in every reachable execution the duplicate-name rejection line is never
written — a bound name means its handler holds the mutex forever, so a
second client blocks at the `mutex.Lock()` of line 260 and the
duplicate check at 269–277 never runs against a non-empty registry.
Indeed at most one session is ever bound at all. -/
theorem c6_duplicate_rejection_dead :
    (∀ s : Sys, SysReachable s → ∀ d, (d, dupNameLine) ∉ s.written)
    ∧ ∀ s : Sys, SysReachable s → s.clients.length ≤ 1 := by
  constructor
  · intro s hs d hmem
    obtain ⟨n, hn⟩ := sys_written_welcome hs d _ hmem
    exact dup_ne_welcome n hn
  · exact fun _ hs => sys_clients_at_most_one hs

/-- Witness for C6: in the jammed `Alice` run, the duplicate-name line
was never written and the registry holds a single session. -/
theorem c6_witness :
    (2, dupNameLine) ∉ sysA4.written ∧ sysA4.clients.length ≤ 1 :=
  ⟨c6_duplicate_rejection_dead.1 sysA4 sysA4_reachable 2,
    c6_duplicate_rejection_dead.2 sysA4 sysA4_reachable⟩

/-- **C7.** The claim (a malformed `/msg` is answered with a usage
message and causes no state change) names behaviour the code neither
reaches nor, as written, implements: (i) no reachable state has a
handler inside the message loop, so no `/msg` line is ever read;
(ii) the dispatch as written handles `/msg` only when `SplitN` yields
three parts — a malformed `/msg` falls through to the chat branch,
which appends `clientName: line` to the history and then blocks on the
broadcast's `mutex.Lock()`, writing nothing to the sender (no usage
message) and nothing to anyone else. -/
theorem c7_malformed_msg_no_usage_reply :
    (∀ s : Sys, SysReachable s → ∀ id n, s.tasks id ≠ some (n, Phase.inLoop))
    ∧ ∀ (conn : Nat) (clientName rawLine : String) (st : ServerState),
        strLeads "/msg " (trimSpace rawLine) = true →
        (goSplitN (trimSpace rawLine) ' ' 3).length ≠ 3 →
        goLen (trimSpace rawLine) ≤ 1024 →
        loopBody conn clientName rawLine st
          = LoopExit.stuck
              ⟨st.clients, st.messages ++ [clientName ++ ": " ++ trimSpace rawLine]⟩ [] := by
  refine ⟨fun _ hs => sys_no_loop hs, ?_⟩
  intro conn clientName rawLine st hpm hlen hsize
  exact loopBody_chat conn clientName rawLine st (msg_marker_ne_empty hpm)
    (fun hand => hlen hand.2) (msg_marker_ne_list hpm) hsize

/-- Witness for C7: the two-token command `/msg Bob`. -/
theorem c7_witness :
    sysA4.tasks 3 ≠ some ("Carol", Phase.inLoop)
    ∧ loopBody 1 "Alice" "/msg Bob" ⟨[(1, "Alice"), (2, "Carol")], []⟩
      = LoopExit.stuck ⟨[(1, "Alice"), (2, "Carol")], ["Alice: /msg Bob"]⟩ [] :=
  ⟨c7_malformed_msg_no_usage_reply.1 sysA4 sysA4_reachable 3 "Carol",
    c7_malformed_msg_no_usage_reply.2 1 "Alice" "/msg Bob"
      ⟨[(1, "Alice"), (2, "Carol")], []⟩ (by decide) (by decide) (by decide)⟩

/-- **C8.** The claim (an oversized plain chat line is answered with
the size-limit notice, not appended, not broadcast) names a check that
is dead code: (i) in every reachable execution the size-limit notice is
never written — the message loop containing it (lines 360–364) is never
entered; (ii) the check as written would indeed answer a plain line
over 1024 bytes with the notice to the sender only and continue the
loop without touching the history. -/
theorem c8_size_notice_dead_code :
    (∀ s : Sys, SysReachable s → ∀ d, (d, msgTooLongLine) ∉ s.written)
    ∧ ∀ (conn : Nat) (clientName rawLine : String) (st : ServerState),
        strLeads "/msg " (trimSpace rawLine) = false →
        1024 < goLen (trimSpace rawLine) →
        loopBody conn clientName rawLine st
          = LoopExit.next st [SEvent.write conn msgTooLongLine] := by
  constructor
  · intro s hs d hmem
    obtain ⟨n, hn⟩ := sys_written_welcome hs d _ hmem
    exact tooLong_ne_welcome n hn
  · exact fun conn clientName rawLine st h1 h2 =>
      loopBody_oversize conn clientName rawLine st h1 h2

/-- Witness for C8: the notice is absent from the jammed run's writes,
and the dead check at a 1025-byte body of `a`s would produce it. -/
theorem c8_witness :
    (3, msgTooLongLine) ∉ sysA4.written
    ∧ loopBody 1 "u" (String.mk (List.replicate 1025 'a')) ⟨[(1, "u")], []⟩
      = LoopExit.next ⟨[(1, "u")], []⟩ [SEvent.write 1 msgTooLongLine] :=
  ⟨c8_size_notice_dead_code.1 sysA4 sysA4_reachable 3,
    c8_size_notice_dead_code.2 1 "u" (String.mk (List.replicate 1025 'a'))
      ⟨[(1, "u")], []⟩ (by decide) (by decide)⟩

/-- **C9.** The claim (every steady-state server line is
newline-terminated and within the 1024-byte cap) quantifies over writes
that never happen, and the written code would break the cap anyway:
(i) in every reachable execution the only lines ever written from line
260 onward are welcome confirmations — the server performs no
steady-state write at all, the loop (including its leave-notice branch,
317–321) being unreachable; (ii) the loop body as written accepts a
1024-byte body (the size check precedes the sender tag) and would
append `Alice: ` plus the body to history — a line of 1032 bytes with
its newline, over the cap — before blocking on the broadcast's lock. -/
theorem c9_no_steady_state_lines :
    (∀ s : Sys, SysReachable s → ∀ d l, (d, l) ∈ s.written → ∃ n, l = welcomeLine n)
    ∧ loopBody 1 "Alice" (String.mk (List.replicate 1024 'a'))
        ⟨[(1, "Alice"), (2, "Bob")], []⟩
        = LoopExit.stuck
            ⟨[(1, "Alice"), (2, "Bob")],
              ["Alice: " ++ String.mk (List.replicate 1024 'a')]⟩ []
    ∧ 1024 < goLen ("Alice: " ++ String.mk (List.replicate 1024 'a') ++ "\n") :=
  ⟨fun _ hs => sys_written_welcome hs, rfl, by decide⟩

/-- Witness for C9: the one line written in the jammed `Alice` run is a
welcome confirmation. -/
theorem c9_witness : ∃ n, ("Welcome, Alice!\n" : String) = welcomeLine n :=
  c9_no_steady_state_lines.1 sysA4 sysA4_reachable 1 "Welcome, Alice!\n" (by decide)

/-- **C10.** The implicit claim (a blank line from an Active session is
silently ignored) presupposes a loop iteration no execution performs:
(i) no reachable state has a handler inside the message loop, so no
steady-state line — blank or otherwise — is ever read; (ii) the loop
body as written would indeed drop a line that trims to empty with no
response, no broadcast and no state change. -/
theorem c10_blank_line_never_read :
    (∀ s : Sys, SysReachable s → ∀ id n, s.tasks id ≠ some (n, Phase.inLoop))
    ∧ ∀ (conn : Nat) (clientName rawLine : String) (st : ServerState),
        trimSpace rawLine = "" →
        loopBody conn clientName rawLine st = LoopExit.next st [] :=
  ⟨fun _ hs => sys_no_loop hs,
    fun conn clientName rawLine st h => loopBody_blank conn clientName rawLine st h⟩

/-- Witness for C10: the jammed run has no task in the loop, and the
dead blank-line branch at a whitespace-only line would do nothing. -/
theorem c10_witness :
    sysA4.tasks 4 ≠ some ("Dave", Phase.inLoop)
    ∧ loopBody 1 "u" " \t " ⟨[(1, "u")], []⟩ = LoopExit.next ⟨[(1, "u")], []⟩ [] :=
  ⟨c10_blank_line_never_read.1 sysA4 sysA4_reachable 4 "Dave",
    c10_blank_line_never_read.2 1 "u" " \t " ⟨[(1, "u")], []⟩ (by decide)⟩

end TCPChat
